import Mathlib

/-!
Shallow embedding of the tool-calling conversation loop of the `my-agent`
repository (files `tools.py`, `memory.py`, `agent.py`), and theorems checking
the natural-language specification's claims against it.

Conventions of the embedding:
* Python strings are Lean `String` / `List Char`; machine-independent string
  primitives (`strip`, `split`, `lower`, slicing) are re-implemented for the
  ASCII fragment the program manipulates.
* Filesystem paths are canonical absolute paths: a `List String` of components
  below the root (no `.` or `..` entries, no symlinks).  `pathlib`'s `resolve`
  becomes lexical normalization over such paths.
* Effectful library calls (subprocess, network, directory walking, `pathlib`
  parsing of a path string) are oracles carried in a `ToolWorld`; the file
  contents on disk are an explicit `FsState` threaded through the functions.
* Fallible Python code is `Except PyExc`: an uncaught Python exception
  crossing a function's boundary is `.error`.
* `json.loads` of a string is represented by its outcome, an `Option PyVal`
  (`none` = `json.JSONDecodeError`); `json.dumps` is re-implemented as `dumps`.
-/

namespace Agent

/-! ## Python string primitives -/

/-- Whitespace as Python's `str.strip` / `str.split` see it (ASCII fragment). -/
def pyIsSpace (c : Char) : Bool :=
  c == ' ' || c == '\t' || c == '\n' || c == '\r' || c == '\x0b' || c == '\x0c'

/-- Accumulator worker for `pyWords`: the accumulator holds the current word
reversed. -/
def wordsAux (acc : List Char) : List Char → List (List Char)
  | [] => if acc = [] then [] else [acc.reverse]
  | c :: cs =>
    if pyIsSpace c then
      if acc = [] then wordsAux [] cs else acc.reverse :: wordsAux [] cs
    else wordsAux (c :: acc) cs

/-- Python `s.split()` with no separator: split on whitespace runs, dropping
empty pieces. -/
def pyWords (s : List Char) : List (List Char) :=
  wordsAux [] s

/-- Python `s.strip()`: drop leading and trailing whitespace. -/
def pyStrip (s : List Char) : List Char :=
  ((s.dropWhile pyIsSpace).reverse.dropWhile pyIsSpace).reverse

/-- `strip` on `String`. -/
def pyStripStr (s : String) : String :=
  String.mk (pyStrip s.data)

/-- Python `s[-n:]` on a string (for a nonnegative literal `n`): the last `n`
characters, or all of `s` when it is shorter. -/
def pyTailStr (n : Nat) (s : String) : String :=
  String.mk (s.data.drop (s.data.length - n))

/-- Python `l[i:]` for an `int` index `i` (negative indices count from the
end, clamped at the ends as Python slices are). -/
def pySliceFrom (l : List α) (i : Int) : List α :=
  if 0 ≤ i then l.drop i.toNat else l.drop ((l.length : Int) + i).toNat

/-- Python `l[-count:]`, the slice `MemoryStore.recent` takes. -/
def recentSlice (l : List α) (count : Int) : List α :=
  pySliceFrom l (-count)

/-- Python `pattern in s` for a literal pattern: substring containment. -/
def strContains (s pat : String) : Bool :=
  (List.range (s.data.length + 1)).any fun i => pat.data.isPrefixOf (s.data.drop i)

/-- ASCII lowercasing of one character, as `str.lower` acts on the ASCII
range this program deals in. -/
def lowerChar (c : Char) : Char :=
  if 65 ≤ c.toNat ∧ c.toNat ≤ 90 then Char.ofNat (c.toNat + 32) else c

/-- Python `s.lower()` (ASCII fragment). -/
def pyLowerStr (s : String) : String :=
  String.mk (s.data.map lowerChar)

/-! ## Workspace guard (`tools.py`, `_resolve_in_workspace`)

A canonical absolute path is the list of its components below the filesystem
root.  `Path.resolve()` on a symlink-free tree is lexical: `.` and empty
segments vanish, `..` pops one component and is a no-op at the root. -/

/-- A canonical absolute path: components below the root. -/
abbrev AbsPath : Type := List String

/-- A user-supplied path as `pathlib` parses it: an absolute-or-relative flag
and the list of its segments (which may contain `..`). -/
structure UserPath where
  absolute : Bool
  segs : List String
deriving DecidableEq

/-- Resolve segments against a base path: `.` and empty segments are dropped,
`..` pops one component (staying at the root when already there), a plain
segment is appended. -/
def normSegs : List String → List String → List String
  | base, [] => base
  | base, s :: rest =>
    if s = "." ∨ s = "" then normSegs base rest
    else if s = ".." then normSegs base.dropLast rest
    else normSegs (base ++ [s]) rest

/-- The `candidate` of `_resolve_in_workspace`:
`(workspace / user_path).resolve()` when the path is relative,
`Path(user_path).resolve()` when it is absolute.  The workspace is assumed
already canonical (`main` resolves it at startup). -/
def resolvePath (workspace : List String) (p : UserPath) : List String :=
  if p.absolute then normSegs [] p.segs else normSegs workspace p.segs

/-- `pathlib`'s `candidate.parents`: the proper ancestors of a path (its
strict prefixes), nearest parent first — `/a/b` has parents `/a`, `/`. -/
def pathParents (l : List String) : List (List String) :=
  ((List.range l.length).map fun i => l.take i).reverse

/-- The failure of the workspace guard (`ValueError("Path is outside
workspace")`). -/
inductive PathError where
  | pathEscape
deriving DecidableEq

/-- `_resolve_in_workspace(workspace, user_path)` from `tools.py`: resolve,
then refuse unless the candidate equals the workspace or has it among its
parents. -/
def resolve_in_workspace (workspace : List String) (p : UserPath) :
    Except PathError (List String) :=
  let candidate := resolvePath workspace p
  if candidate = workspace ∨ workspace ∈ pathParents candidate then .ok candidate
  else .error .pathEscape

/-! ## Python values, exceptions and `json.dumps` -/

/-- The JSON-representable Python values the program passes around (tool
argument objects, tool result dicts, parsed memory files). -/
inductive PyVal where
  | str (s : String)
  | int (n : Int)
  | bool (b : Bool)
  | null
  | list (xs : List PyVal)
  | dict (fields : List (String × PyVal))

/-- Uncaught Python exceptions that the modelled code can let escape. -/
inductive PyExc where
  | attributeError
  | typeError
deriving DecidableEq

/-- Python truthiness of a `PyVal` (`bool(v)`). -/
def pyTruthy : PyVal → Bool
  | .str s => s ≠ ""
  | .int n => n ≠ 0
  | .bool b => b
  | .null => false
  | .list xs => !xs.isEmpty
  | .dict fields => !fields.isEmpty

/-- `fields.get(key, dflt)` on the association list of a Python dict. -/
def dictGet (fields : List (String × PyVal)) (key : String) (dflt : PyVal) : PyVal :=
  match fields.find? (fun kv => kv.1 = key) with
  | some kv => kv.2
  | none => dflt

/-- Python `v.get(key, dflt)`: only a dict has the `get` attribute; any other
value raises `AttributeError`. -/
def pyGet (v : PyVal) (key : String) (dflt : PyVal) : Except PyExc PyVal :=
  match v with
  | .dict fields => .ok (dictGet fields key dflt)
  | _ => .error .attributeError

/-- One hexadecimal digit, lowercase. -/
def hexDigit (n : Nat) : Char :=
  if n < 10 then Char.ofNat (48 + n) else Char.ofNat (87 + n)

/-- Four hexadecimal digits of `n % 65536`, as `json.dumps` writes a `\u`
escape. -/
def hex4 (n : Nat) : String :=
  String.mk [hexDigit (n / 4096 % 16), hexDigit (n / 256 % 16),
             hexDigit (n / 16 % 16), hexDigit (n % 16)]

/-- `json.dumps` escaping of one character of a string (default
`ensure_ascii=True`). -/
def jsonEscapeChar (c : Char) : String :=
  if c = '\\' then "\\\\"
  else if c = '"' then "\\\""
  else if c = '\n' then "\\n"
  else if c = '\t' then "\\t"
  else if c = '\r' then "\\r"
  else if c = '\x08' then "\\b"
  else if c = '\x0c' then "\\f"
  else if c.toNat < 32 || c.toNat > 126 then "\\u" ++ hex4 c.toNat
  else String.singleton c

/-- A string as `json.dumps` renders it. -/
def jsonQuote (s : String) : String :=
  "\"" ++ String.join (s.data.map jsonEscapeChar) ++ "\""

mutual

/-- `json.dumps(v)` with default separators. -/
def dumps : PyVal → String
  | .str s => jsonQuote s
  | .int n => toString n
  | .bool b => if b then "true" else "false"
  | .null => "null"
  | .list xs => "[" ++ dumpsList xs ++ "]"
  | .dict fields => "\x7b" ++ dumpsFields fields ++ "\x7d"

/-- Comma-joined rendering of a JSON array's elements. -/
def dumpsList : List PyVal → String
  | [] => ""
  | [v] => dumps v
  | v :: rest => dumps v ++ ", " ++ dumpsList rest

/-- Comma-joined rendering of a JSON object's key/value pairs. -/
def dumpsFields : List (String × PyVal) → String
  | [] => ""
  | [(k, v)] => jsonQuote k ++ ": " ++ dumps v
  | (k, v) :: rest => jsonQuote k ++ ": " ++ dumps v ++ ", " ++ dumpsFields rest

end

/-- The `ok:false` result dict shared by the tool failure paths. -/
def errVal (msg : String) : PyVal :=
  .dict [("ok", .bool false), ("error", .str msg)]

/-! ## Shell tool (`tools.py`, `run_shell`) -/

/-- The command allowlist, in source order (a Python `set` literal). -/
def ALLOWED_COMMAND_PREFIXES : List String :=
  ["python", "py", "git", "rg", "Get-ChildItem", "dir", "type", "echo", "Get-Content"]

/-- `sorted(ALLOWED_COMMAND_PREFIXES)`: Python sorts strings by code points,
so the capitalized entries come first. -/
def sortedAllowedCommands : List String :=
  ["Get-ChildItem", "Get-Content", "dir", "echo", "git", "py", "python", "rg", "type"]

/-- `command.strip().split(maxsplit=1)[0] if command.strip() else ""`: the
first whitespace-delimited token of the command, or `""` when there is none. -/
def firstTokenOf (command : String) : String :=
  match pyWords command.data with
  | [] => ""
  | w :: _ => String.mk w

/-- Outcome of the `subprocess.run(["powershell", ...])` call: oracle for the
machine's shell. -/
inductive ShellRun where
  | completed (returncode : Int) (stdout stderr : String)
  | timedOut

/-- Side effects a tool performs, recorded so theorems can state that a branch
performs none. -/
inductive Effect where
  | spawn (command cwd : String)
  | fsRead (path : AbsPath)
  | fsWrite (path : AbsPath) (content : String)
  | listDir (path : AbsPath)
  | web (query : String)
deriving DecidableEq

/-- `run_shell(command, cwd)` from `tools.py` (with the default
`timeout_seconds=45`, the only value `execute_tool` uses): refuse a command
whose first token is outside the allowlist, otherwise spawn one shell and
report its outcome with tail-truncated streams. -/
def run_shell (shell : String → String → ShellRun) (command cwd : String) :
    PyVal × List Effect :=
  let first := firstTokenOf command
  if first ≠ "" ∧ first ∉ ALLOWED_COMMAND_PREFIXES then
    (.dict [("ok", .bool false),
            ("error", .str ("Command prefix '" ++ first ++ "' is blocked by allowlist.")),
            ("allowed_prefixes", .list (sortedAllowedCommands.map .str))], [])
  else
    match shell command cwd with
    | .completed rc out err =>
        (.dict [("ok", .bool (rc = 0)), ("returncode", .int rc),
                ("stdout", .str (pyTailStr 8000 out)),
                ("stderr", .str (pyTailStr 8000 err))],
         [.spawn command cwd])
    | .timedOut =>
        (errVal "Command timed out after 45s", [.spawn command cwd])

/-! ## File tools (`tools.py`, `read_file` / `write_file` / `list_files`)

The disk is a map from canonical absolute paths to file contents; directories
and I/O errors other than a missing file are outside the model.  The text
layer is not transparent: `Path.write_text` and `Path.read_text` are opened
with the default `newline=None`, so writing translates `'\n'` to `os.linesep`
— `'\r\n'` on this program's declared Windows platform (it spawns
`powershell`) — and reading applies universal-newline decoding, collapsing
`'\r\n'` and a lone `'\r'` to `'\n'`. -/

/-- The files on disk. -/
def FsState : Type := AbsPath → Option String

/-- Render a canonical absolute path the way `str(Path)` does (POSIX-style
separator in the model). -/
def renderPath (p : AbsPath) : String :=
  "/" ++ String.intercalate "/" p

/-- `p.relative_to(workspace)` rendered as text, for a `p` under the
workspace. -/
def renderRelative (workspace p : AbsPath) : String :=
  String.intercalate "/" (p.drop workspace.length)

/-- The newline translation of `write_text` under `newline=None`: each `'\n'`
becomes the platform separator `'\r\n'` (Windows); every other character,
including a lone `'\r'`, is written verbatim. -/
def encodeNewlines : List Char → List Char
  | [] => []
  | c :: rest =>
    if c = '\n' then '\r' :: '\n' :: encodeNewlines rest
    else c :: encodeNewlines rest

/-- The universal-newline decoding of `read_text` under `newline=None`:
`'\r\n'` and a lone `'\r'` both become `'\n'`. -/
def decodeNewlines : List Char → List Char
  | [] => []
  | [c] => if c = '\r' then ['\n'] else [c]
  | c :: d :: rest =>
    if c = '\r' then
      if d = '\n' then '\n' :: decodeNewlines rest
      else '\n' :: decodeNewlines (d :: rest)
    else c :: decodeNewlines (d :: rest)

/-- `write_text`'s translation on a `String`. -/
def encodeStr (s : String) : String :=
  String.mk (encodeNewlines s.data)

/-- `read_text`'s decoding on a `String`. -/
def decodeStr (s : String) : String :=
  String.mk (decodeNewlines s.data)

/-- `read_file(workspace, path)` from `tools.py`: confine, check existence,
decode the stored text (universal newlines) and tail-truncate it to 16000
characters. -/
def read_file (workspace : AbsPath) (fs : FsState) (p : UserPath) :
    PyVal × List Effect :=
  match resolve_in_workspace workspace p with
  | .error _ => (errVal "Path is outside workspace", [])
  | .ok q =>
    match fs q with
    | none => (errVal "File does not exist", [])
    | some content =>
        (.dict [("ok", .bool true), ("path", .str (renderPath q)),
                ("content", .str (pyTailStr 16000 (decodeStr content)))],
         [.fsRead q])

/-- `write_file(workspace, path, content)` from `tools.py`: confine, write the
whole file with `write_text`'s newline translation applied, and report the
UTF-8 byte count of the argument (the source computes
`len(content.encode("utf-8"))` on the argument, not on the disk bytes). -/
def write_file (workspace : AbsPath) (fs : FsState) (p : UserPath)
    (content : String) : PyVal × FsState × List Effect :=
  match resolve_in_workspace workspace p with
  | .error _ => (errVal "Path is outside workspace", fs, [])
  | .ok q =>
      (.dict [("ok", .bool true), ("path", .str (renderPath q)),
              ("bytes", .int (content.utf8ByteSize : Int))],
       fun r => if r = q then some (encodeStr content) else fs r,
       [.fsWrite q (encodeStr content)])

/-- `list_files(workspace, path)` from `tools.py`: confine, then enumerate at
most 200 files (the walk `resolved.rglob("*")` is the `rglob` oracle; the
append-then-check loop collects exactly the first 200). -/
def list_files (workspace : AbsPath) (pathExists : AbsPath → Bool)
    (rglob : AbsPath → List AbsPath) (p : UserPath) : PyVal × List Effect :=
  match resolve_in_workspace workspace p with
  | .error _ => (errVal "Path is outside workspace", [])
  | .ok q =>
    if pathExists q then
      (.dict [("ok", .bool true),
              ("files", .list (((rglob q).take 200).map
                 (fun f => .str (renderRelative workspace f))))],
       [.listDir q])
    else (errVal "Path does not exist", [])

/-- `web_lookup(query)` from `tools.py`: the empty-query check is code, the
two network endpoints and their normalization are the `web` oracle (the
source's own `try`/`except` guarantees the oracle returns a dict, never
raises). -/
def web_lookup (web : String → PyVal) (query : String) : PyVal × List Effect :=
  let q := pyStripStr query
  if q = "" then (errVal "Query is empty", [])
  else (web q, [.web q])

/-! ## Conversation memory (`memory.py`) -/

/-- The backing `memory.json` file, represented by the outcome of reading and
`json.loads`-parsing it: absent, unparseable (`none`), or parsed to a value
(which need not be a list). -/
inductive MemFile where
  | absent
  | present (parsed : Option PyVal)

/-- `MemoryStore._read_all`: missing file or `json.JSONDecodeError` give `[]`;
any successfully parsed value is returned as-is, without checking that it is
a list. -/
def read_all : MemFile → PyVal
  | .absent => .list []
  | .present none => .list []
  | .present (some v) => v

/-- Python `v[-count:]`: lists and strings slice; slicing any other value
raises `TypeError`. -/
def pySliceVal (v : PyVal) (count : Int) : Except PyExc PyVal :=
  match v with
  | .list xs => .ok (.list (recentSlice xs count))
  | .str s => .ok (.str (String.mk (recentSlice s.data count)))
  | _ => .error .typeError

/-- `MemoryStore.recent(count)` from `memory.py`: read everything and take the
slice `items[-count:]`. -/
def recent (file : MemFile) (count : Int) : Except PyExc PyVal :=
  pySliceVal (read_all file) count

/-! ## Tool dispatch (`tools.py`, `execute_tool`) -/

/-- The ambient machine a tool call runs against: the workspace root, and
oracles for `pathlib` path parsing, the shell, the network, directory
existence and the recursive file walk, plus the proactive web-prefetch of
`agent.py` (whose outcome depends on the network). -/
structure ToolWorld where
  workspace : AbsPath
  parsePath : String → UserPath
  shell : String → String → ShellRun
  web : String → PyVal
  pathExists : AbsPath → Bool
  rglob : AbsPath → List AbsPath
  prefetch : String → Option String

/-- `execute_tool(name, arguments, workspace)` from `tools.py`.  The
`arguments` string is represented by its `json.loads` outcome (`none` =
`json.JSONDecodeError`).  Branches follow the source: a non-dict argument
value raises `AttributeError` at `args.get`, a non-string path or content
raises `TypeError` inside `pathlib`/`write_text`, a non-string command raises
`AttributeError` at `command.strip()`; every returned result is
`json.dumps`-serialized text. -/
def execute_tool (w : ToolWorld) (fs : FsState) (name : String)
    (args : Option PyVal) : Except PyExc (String × FsState × List Effect) :=
  match args with
  | none => .ok (dumps (errVal "Invalid JSON args"), fs, [])
  | some args =>
    if name = "run_shell" then
      match pyGet args "cwd" .null with
      | .error e => .error e
      | .ok cwdVal =>
        let cwd := match cwdVal with
          | .str s => s
          | _ => "."
        match resolve_in_workspace w.workspace (w.parsePath cwd) with
        | .error _ => .ok (dumps (errVal "Path is outside workspace"), fs, [])
        | .ok resolvedCwd =>
          match pyGet args "command" (.str "") with
          | .error e => .error e
          | .ok (.str command) =>
              let (res, effs) := run_shell w.shell command (renderPath resolvedCwd)
              .ok (dumps res, fs, effs)
          | .ok _ => .error .attributeError
    else if name = "read_file" then
      match pyGet args "path" (.str "") with
      | .error e => .error e
      | .ok (.str path) =>
          let (res, effs) := read_file w.workspace fs (w.parsePath path)
          .ok (dumps res, fs, effs)
      | .ok _ => .error .typeError
    else if name = "write_file" then
      match pyGet args "path" (.str "") with
      | .error e => .error e
      | .ok pathVal =>
        match pyGet args "content" (.str "") with
        | .error e => .error e
        | .ok contentVal =>
          match pathVal, contentVal with
          | .str path, .str content =>
              let (res, fs', effs) := write_file w.workspace fs (w.parsePath path) content
              .ok (dumps res, fs', effs)
          | _, _ => .error .typeError
    else if name = "list_files" then
      match pyGet args "path" (.str ".") with
      | .error e => .error e
      | .ok (.str path) =>
          let (res, effs) := list_files w.workspace w.pathExists w.rglob (w.parsePath path)
          .ok (dumps res, fs, effs)
      | .ok _ => .error .typeError
    else if name = "web_lookup" then
      match pyGet args "query" (.str "") with
      | .error e => .error e
      | .ok (.str query) =>
          let (res, effs) := web_lookup w.web query
          .ok (dumps res, fs, effs)
      | .ok queryVal =>
          if pyTruthy queryVal then .error .attributeError
          else .ok (dumps (errVal "Query is empty"), fs, [])
    else
      .ok (dumps (errVal ("Unknown tool: " ++ name)), fs, [])

/-! ## Smalltalk heuristic (`agent.py`, `maybe_handle_smalltalk`) -/

/-- The bilingual greeting set of `agent.py`. -/
def GREETING_WORDS : List String :=
  ["hi", "hello", "hey", "yo", "sup", "hola", "hoi", "hallo", "heyo",
   "goedemorgen", "goedemiddag", "goedenavond"]

/-- The Dutch subset that selects the Dutch canned reply. -/
def DUTCH_GREETING_WORDS : List String :=
  ["hoi", "hallo", "goedemorgen", "goedemiddag", "goedenavond"]

/-- The canned Dutch reply. -/
def dutchReply : String :=
  "Hoi! Ik ben er. Zeg maar wat je wilt doen, dan help ik je direct."

/-- The canned English reply. -/
def englishReply : String :=
  "Hey! I'm here. Tell me what you want to build or fix."

/-- The characters the substitution `re.sub(r"[^a-zA-Z0-9\\s]", " ", ...)`
keeps.  The pattern is a raw string, so its class holds a literal backslash
and a literal `s`, not `\s`; whitespace is therefore replaced by `' '` (which
is harmless) and a backslash survives. -/
def smalltalkKeep (c : Char) : Bool :=
  if (97 ≤ c.toNat ∧ c.toNat ≤ 122) ∨ (65 ≤ c.toNat ∧ c.toNat ≤ 90) ∨
      (48 ≤ c.toNat ∧ c.toNat ≤ 57) ∨ c.toNat = 92 ∨ c.toNat = 115 then true
  else false

/-- The `cleaned` string of `maybe_handle_smalltalk`: lowercase, substitute
the characters outside the class by spaces, strip. -/
def smalltalkClean (s : List Char) : List Char :=
  pyStrip ((s.map lowerChar).map fun c => if smalltalkKeep c then c else ' ')

/-- `maybe_handle_smalltalk(user_input)` from `agent.py`: a canned reply for
at most three cleaned words all in the greeting set, Dutch when any word is
in the Dutch subset. -/
def maybe_handle_smalltalk (userInput : String) : Option String :=
  if smalltalkClean userInput.data = [] then none
  else if pyWords (smalltalkClean userInput.data) = [] then none
  else if (pyWords (smalltalkClean userInput.data)).length ≤ 3 ∧
      (pyWords (smalltalkClean userInput.data)).all
        (fun w => String.mk w ∈ GREETING_WORDS) then
    if (pyWords (smalltalkClean userInput.data)).any
        (fun w => String.mk w ∈ DUTCH_GREETING_WORDS) then some dutchReply
    else some englishReply
  else none

/-! ## Provider-mode selection (`agent.py`, `_choose_api_mode`) -/

/-- `_choose_api_mode(mode, base_url)` from `agent.py`: an explicit mode wins;
no or empty base URL (Python falsiness) defaults to `"responses"`; otherwise
`"chat"` exactly when the lowercased URL contains `"localhost"` or
`"127.0.0.1"` as a substring. -/
def choose_api_mode (mode : String) (baseUrl : Option String) : String :=
  if mode = "responses" ∨ mode = "chat" then mode
  else if baseUrl = none ∨ baseUrl = some "" then "responses"
  else
    let lower := pyLowerStr (baseUrl.getD "")
    if strContains lower "localhost" || strContains lower "127.0.0.1" then "chat"
    else "responses"

/-- Modelled from the spec: the host component of a URL (the text after any
`scheme://`, up to the first `/`, `:`, `?` or `#`), for comparing the code's
substring heuristic with the specification's "host is a loopback address". -/
def findSchemeSep : List Char → Option (List Char)
  | [] => none
  | ':' :: '/' :: '/' :: rest => some rest
  | _ :: rest => findSchemeSep rest

/-- Modelled from the spec: extract the host of a base URL. -/
def specHost (url : String) : String :=
  let t := (findSchemeSep url.data).getD url.data
  String.mk (t.takeWhile fun c => c ≠ '/' && c ≠ ':' && c ≠ '?' && c ≠ '#')

/-- Modelled from the spec: is a host a loopback address. -/
def isLoopbackHost (h : String) : Bool :=
  h = "localhost" || juxtPrefix127 h || h = "::1" || h = "[::1]"
where
  /-- Does the host start with the loopback IPv4 block `127.`? -/
  juxtPrefix127 (h : String) : Bool := ['1', '2', '7', '.'].isPrefixOf h.data

/-- Modelled from the spec (§4.6 selection policy): an explicit mode always
wins; otherwise no custom endpoint defaults to the stateful style; a custom
endpoint whose host is a loopback address defaults to the chat style; any
other endpoint to the stateful style. -/
def choose_api_mode_spec (mode : String) (baseUrl : Option String) : String :=
  if mode = "responses" ∨ mode = "chat" then mode
  else if baseUrl = none ∨ baseUrl = some "" then "responses"
  else if isLoopbackHost (specHost (pyLowerStr (baseUrl.getD ""))) then "chat"
  else "responses"

/-! ## Turn engines (`agent.py`, `run_turn_chat` / `run_turn_responses`)

The provider is an oracle; a turn's observable outcome is the final text (or
the uncaught exception, or — for the uncapped stateful loop — exhaustion of
the modelling fuel) together with the number of provider round-trips. -/

/-- The fixed system instruction of `agent.py`. -/
def SYSTEM_PROMPT : String :=
  "You are a pragmatic coding agent running on Windows.\nUse tools when needed. Prefer precise, minimal edits.\nNever claim to run commands you did not run.\nUnderstand both Dutch and English user input, including casual greetings/slang.\nIf a user term is unclear, use web_lookup to infer meaning before answering.\n"

/-- One transcript entry as the engine renders it (entries written by this
program always carry string `role` and `content`). -/
structure Entry where
  role : String
  content : String

/-- A tool call in a chat-completions response; its `arguments` string is
represented by its `json.loads` outcome. -/
structure ChatToolCall where
  id : String
  name : String
  args : Option PyVal

/-- A message of the growing chat-completions conversation. -/
inductive Msg where
  | system (content : String)
  | user (content : String)
  | assistant (content : String) (toolCalls : List ChatToolCall)
  | tool (callId : String) (output : String)

/-- A chat-completions response: `message.content` (possibly `None`) and
`message.tool_calls or []`. -/
structure ChatCompletion where
  content : Option String
  toolCalls : List ChatToolCall

/-- How a turn ends in the model: a returned answer, an uncaught Python
exception, or (stateful loop only) the modelling fuel running out — the
source's `while True` has no cap of its own. -/
inductive Outcome where
  | answer (text : String)
  | exc (e : PyExc)
  | fuelOut

/-- Execute one round's tool calls in order, collecting the `role:"tool"`
messages; a raised exception aborts the turn. -/
def execCalls (w : ToolWorld) (fs : FsState) :
    List ChatToolCall → Except PyExc (List Msg × FsState)
  | [] => .ok ([], fs)
  | c :: cs =>
    match execute_tool w fs c.name c.args with
    | .error e => .error e
    | .ok (out, fs', _) =>
      match execCalls w fs' cs with
      | .error e => .error e
      | .ok (rest, fs'') => .ok (Msg.tool c.id out :: rest, fs'')

/-- The `for _ in range(12)` body of `run_turn_chat`: each level consumes one
provider round-trip; zero remaining iterations return the fixed stop
message.  The returned `Nat` counts provider calls. -/
def chatLoop (w : ToolWorld) (provider : List Msg → ChatCompletion) :
    List Msg → FsState → Nat → Outcome × Nat
  | _, _, 0 => (.answer "Stopped after too many tool iterations.", 0)
  | messages, fs, n + 1 =>
    let comp := provider messages
    if comp.toolCalls.isEmpty then
      (.answer (pyStripStr (comp.content.getD "")), 1)
    else
      match execCalls w fs comp.toolCalls with
      | .error e => (.exc e, 1)
      | .ok (toolMsgs, fs') =>
        let messages' :=
          messages ++ Msg.assistant (comp.content.getD "") comp.toolCalls :: toolMsgs
        let (o, k) := chatLoop w provider messages' fs' n
        (o, k + 1)

/-- `run_turn_chat` from `agent.py`: smalltalk short-circuit, then assemble
the system context (prompt, workspace, last 8 transcript entries, optional
prefetched web context) and run at most 12 chat rounds. -/
def run_turn_chat (w : ToolWorld) (fs : FsState)
    (provider : List Msg → ChatCompletion) (memoryItems : List Entry)
    (userInput : String) : Outcome × Nat :=
  match maybe_handle_smalltalk userInput with
  | some reply => (.answer reply, 0)
  | none =>
    let recentItems := recentSlice memoryItems 8
    let historyBlock :=
      String.intercalate "\n" (recentItems.map fun e => e.role ++ ": " ++ e.content)
    let baseMsgs : List Msg :=
      [.system SYSTEM_PROMPT,
       .system ("Workspace: " ++ renderPath w.workspace),
       .system ("Recent memory:\n" ++ historyBlock)]
    let withWeb :=
      match w.prefetch userInput with
      | some ctx => baseMsgs ++ [.system ctx]
      | none => baseMsgs
    chatLoop w provider (withWeb ++ [.user userInput]) fs 12

/-- A `function_call` item of a responses-API output. -/
structure RespCall where
  callId : String
  name : String
  args : Option PyVal

/-- A responses-API response: output text and the `function_call` items. -/
structure RespOut where
  text : String
  functionCalls : List RespCall

/-- One `function_call_output` item submitted back to the provider. -/
structure RespToolOutput where
  callId : String
  output : String

/-- Execute one round's function calls in order, collecting the
`function_call_output` items. -/
def execCallsR (w : ToolWorld) (fs : FsState) :
    List RespCall → Except PyExc (List RespToolOutput × FsState)
  | [] => .ok ([], fs)
  | c :: cs =>
    match execute_tool w fs c.name c.args with
    | .error e => .error e
    | .ok (out, fs', _) =>
      match execCallsR w fs' cs with
      | .error e => .error e
      | .ok (rest, fs'') => .ok (RespToolOutput.mk c.callId out :: rest, fs'')

/-- The `while True` loop of `run_turn_responses`: the provider (holding the
session server-side) is indexed by the initial input, the round number and
the tool outputs submitted that round.  The source loop has no iteration cap,
so the model carries fuel; running out is `Outcome.fuelOut`, a state the
source would never leave the loop in. -/
def respLoop (w : ToolWorld)
    (provider : List Msg → Nat → List RespToolOutput → RespOut)
    (initialInput : List Msg) :
    Nat → List RespToolOutput → FsState → Nat → Outcome × Nat
  | _, _, _, 0 => (.fuelOut, 0)
  | round, submitted, fs, fuel + 1 =>
    let resp := provider initialInput round submitted
    if resp.functionCalls.isEmpty then
      (.answer (pyStripStr resp.text), 1)
    else
      match execCallsR w fs resp.functionCalls with
      | .error e => (.exc e, 1)
      | .ok (outputs, fs') =>
        let (o, k) := respLoop w provider initialInput (round + 1) outputs fs' fuel
        (o, k + 1)

/-- `run_turn_responses` from `agent.py`: smalltalk short-circuit, then the
same context assembly as the chat engine and the uncapped stateful loop. -/
def run_turn_responses (w : ToolWorld) (fs : FsState)
    (provider : List Msg → Nat → List RespToolOutput → RespOut)
    (memoryItems : List Entry) (userInput : String) (fuel : Nat) :
    Outcome × Nat :=
  match maybe_handle_smalltalk userInput with
  | some reply => (.answer reply, 0)
  | none =>
    let recentItems := recentSlice memoryItems 8
    let historyBlock :=
      String.intercalate "\n" (recentItems.map fun e => e.role ++ ": " ++ e.content)
    let baseMsgs : List Msg :=
      [.system SYSTEM_PROMPT,
       .system ("Workspace: " ++ renderPath w.workspace),
       .system ("Recent memory:\n" ++ historyBlock)]
    let withWeb :=
      match w.prefetch userInput with
      | some ctx => baseMsgs ++ [.system ctx]
      | none => baseMsgs
    respLoop w provider (withWeb ++ [.user userInput]) 0 [] fs fuel

/-! ## Lemmas about the string primitives -/

lemma wordsAux_all_space {l : List Char} (h : ∀ c ∈ l, pyIsSpace c = true)
    (acc : List Char) :
    wordsAux acc l = if acc = [] then [] else [acc.reverse] := by
  induction l generalizing acc with
  | nil => rfl
  | cons c cs ih =>
    have hc : pyIsSpace c = true := h c (List.mem_cons_self c cs)
    have hcs : ∀ x ∈ cs, pyIsSpace x = true :=
      fun x hx => h x (List.mem_cons_of_mem c hx)
    by_cases ha : acc = [] <;> simp [wordsAux, hc, ha, ih hcs]

lemma wordsAux_append_space {v : List Char} (hv : ∀ c ∈ v, pyIsSpace c = true)
    (u acc : List Char) : wordsAux acc (u ++ v) = wordsAux acc u := by
  induction u generalizing acc with
  | nil =>
    rw [List.nil_append, wordsAux_all_space hv acc]
    rfl
  | cons c cs ih =>
    by_cases hc : pyIsSpace c = true
    · by_cases ha : acc = [] <;> simp [wordsAux, hc, ha, ih]
    · simp [wordsAux, hc, ih]

lemma wordsAux_dropWhile (l : List Char) :
    wordsAux [] (l.dropWhile pyIsSpace) = wordsAux [] l := by
  induction l with
  | nil => rfl
  | cons c cs ih =>
    by_cases hc : pyIsSpace c = true
    · rw [List.dropWhile_cons_of_pos hc, ih]
      simp [wordsAux, hc]
    · rw [List.dropWhile_cons_of_neg (by simp [hc])]

lemma pyWords_pyStrip (s : List Char) : pyWords (pyStrip s) = pyWords s := by
  unfold pyWords pyStrip
  have hdecomp : s.dropWhile pyIsSpace =
      ((s.dropWhile pyIsSpace).reverse.dropWhile pyIsSpace).reverse ++
        ((s.dropWhile pyIsSpace).reverse.takeWhile pyIsSpace).reverse := by
    conv_lhs => rw [← List.reverse_reverse (s.dropWhile pyIsSpace),
      ← List.takeWhile_append_dropWhile (p := pyIsSpace)
        (l := (s.dropWhile pyIsSpace).reverse)]
    rw [List.reverse_append]
  have hsp : ∀ c ∈ ((s.dropWhile pyIsSpace).reverse.takeWhile pyIsSpace).reverse,
      pyIsSpace c = true := by
    intro c hc
    rw [List.mem_reverse] at hc
    exact List.mem_takeWhile_imp hc
  rw [← wordsAux_dropWhile s, ← wordsAux_append_space hsp
    ((s.dropWhile pyIsSpace).reverse.dropWhile pyIsSpace).reverse [], ← hdecomp]

lemma wordsAux_map {f : Char → Char} {l : List Char}
    (h : ∀ c ∈ l, (pyIsSpace c = false ∧ f c = c) ∨
      (pyIsSpace c = true ∧ pyIsSpace (f c) = true))
    (acc : List Char) : wordsAux acc (l.map f) = wordsAux acc l := by
  induction l generalizing acc with
  | nil => rfl
  | cons c cs ih =>
    have hcs : ∀ x ∈ cs, (pyIsSpace x = false ∧ f x = x) ∨
        (pyIsSpace x = true ∧ pyIsSpace (f x) = true) :=
      fun x hx => h x (List.mem_cons_of_mem c hx)
    rcases h c (List.mem_cons_self c cs) with ⟨h1, h2⟩ | ⟨h1, h2⟩
    · simp [wordsAux, h1, h2, ih hcs]
    · by_cases ha : acc = [] <;> simp [wordsAux, h1, h2, ha, ih hcs]

lemma exists_word_of_mem {c : Char} (hc : pyIsSpace c = false) :
    ∀ (l acc : List Char), (c ∈ acc ∨ c ∈ l) → ∃ w ∈ wordsAux acc l, c ∈ w := by
  intro l
  induction l with
  | nil =>
    intro acc hmem
    rcases hmem with h | h
    · have hne : acc ≠ [] := by rintro rfl; simp at h
      exact ⟨acc.reverse, by simp [wordsAux, hne], by simp [h]⟩
    · simp at h
  | cons d ds ih =>
    intro acc hmem
    by_cases hd : pyIsSpace d = true
    · have hcd : c ≠ d := by rintro rfl; rw [hc] at hd; exact Bool.false_ne_true hd
      have hds : c ∈ acc ∨ c ∈ ds := by
        rcases hmem with h | h
        · exact Or.inl h
        · rcases List.mem_cons.mp h with rfl | h'
          · exact absurd rfl hcd
          · exact Or.inr h'
      by_cases ha : acc = []
      · subst ha
        obtain ⟨w, hw, hcw⟩ := ih [] (by simpa using hds)
        exact ⟨w, by simpa [wordsAux, hd] using hw, hcw⟩
      · rcases hds with h | h
        · exact ⟨acc.reverse, by simp [wordsAux, hd, ha], by simp [h]⟩
        · obtain ⟨w, hw, hcw⟩ := ih [] (Or.inr h)
          refine ⟨w, ?_, hcw⟩
          simp only [wordsAux, hd, if_true, ha, if_false, ite_false]
          exact List.mem_cons_of_mem _ hw
    · have : c ∈ (d :: acc) ∨ c ∈ ds := by
        rcases hmem with h | h
        · exact Or.inl (List.mem_cons_of_mem d h)
        · rcases List.mem_cons.mp h with rfl | h'
          · exact Or.inl (List.mem_cons_self c acc)
          · exact Or.inr h'
      obtain ⟨w, hw, hcw⟩ := ih (d :: acc) this
      exact ⟨w, by simpa [wordsAux, hd] using hw, hcw⟩

/-! ## Lemmas about the path model -/

lemma mem_pathParents {a c : List String} :
    a ∈ pathParents c ↔ (a <+: c ∧ a ≠ c) := by
  unfold pathParents
  rw [List.mem_reverse]
  simp only [List.mem_map, List.mem_range]
  constructor
  · rintro ⟨i, hi, rfl⟩
    refine ⟨List.take_prefix i c, ?_⟩
    intro h
    have hlen : (c.take i).length = c.length := by rw [h]
    rw [List.length_take] at hlen
    omega
  · rintro ⟨hp, hne⟩
    refine ⟨a.length, ?_, (List.prefix_iff_eq_take.mp hp).symm⟩
    have hle := hp.length_le
    rcases lt_or_eq_of_le hle with h | h
    · exact h
    · exact absurd (hp.eq_of_length h) hne

/-! ## Claim C1: workspace confinement -/

/-- C1 counterexample: the claim says confining the relative path `../x`
fails with `PathEscape` for every workspace, but for the workspace `/home/x`
(any workspace whose own last component is `x`) the candidate `/home/x/../x`
resolves back to the workspace itself and confinement succeeds. -/
theorem C1_counterexample :
    resolve_in_workspace ["home", "x"] ⟨false, ["..", "x"]⟩ = .ok ["home", "x"] := by
  rfl

/-- The workspace guard in descendant form: it succeeds exactly when the
resolved candidate equals the workspace or has it as a strict prefix. -/
lemma confine_iff (ws : AbsPath) (p : UserPath) :
    resolve_in_workspace ws p =
      (if resolvePath ws p = ws ∨ (ws <+: resolvePath ws p ∧ ws ≠ resolvePath ws p)
       then .ok (resolvePath ws p) else .error .pathEscape) := by
  show (if resolvePath ws p = ws ∨ ws ∈ pathParents (resolvePath ws p)
        then Except.ok (resolvePath ws p) else Except.error PathError.pathEscape) = _
  by_cases hc : resolvePath ws p = ws ∨ (ws <+: resolvePath ws p ∧ ws ≠ resolvePath ws p)
  · have hc' : resolvePath ws p = ws ∨ ws ∈ pathParents (resolvePath ws p) := by
      rcases hc with h | h
      · exact Or.inl h
      · exact Or.inr (mem_pathParents.mpr h)
    rw [if_pos hc', if_pos hc]
  · have hc' : ¬(resolvePath ws p = ws ∨ ws ∈ pathParents (resolvePath ws p)) := by
      rintro (h | h)
      · exact hc (Or.inl h)
      · exact hc (Or.inr (mem_pathParents.mp h))
    rw [if_neg hc', if_neg hc]

/-- C1 (amended): for every workspace that is neither the filesystem root nor
a directory itself named `x`, confining `../x` fails with `PathEscape`;
confining `sub/y` always succeeds and returns `workspace/sub/y`; and in
general `_resolve_in_workspace` succeeds exactly when the resolved absolute
path equals the workspace or is a strict descendant of it (relative paths
being resolved against the workspace), returning that resolved path. -/
theorem C1_confine_characterization (ws : AbsPath) (p : UserPath)
    (h1 : ws ≠ []) (h2 : ws.getLast? ≠ some "x") :
    resolve_in_workspace ws ⟨false, ["..", "x"]⟩ = .error .pathEscape ∧
    resolve_in_workspace ws ⟨false, ["sub", "y"]⟩ = .ok (ws ++ ["sub", "y"]) ∧
    resolve_in_workspace ws p =
      (if resolvePath ws p = ws ∨ (ws <+: resolvePath ws p ∧ ws ≠ resolvePath ws p)
       then .ok (resolvePath ws p) else .error .pathEscape) := by
  refine ⟨?_, ?_, confine_iff ws p⟩
  · have hq : resolvePath ws ⟨false, ["..", "x"]⟩ = ws.dropLast ++ ["x"] := rfl
    have hlen : (ws.dropLast ++ ["x"]).length = ws.length := by
      have : 1 ≤ ws.length := List.length_pos.mpr h1
      simp only [List.length_append, List.length_dropLast, List.length_cons,
        List.length_nil]
      omega
    have hne : ws.dropLast ++ ["x"] ≠ ws := by
      intro h
      have hg : ws.dropLast ++ [ws.getLast h1] = ws := List.dropLast_append_getLast h1
      have hx : ws.dropLast ++ ["x"] = ws.dropLast ++ [ws.getLast h1] := h.trans hg.symm
      have : "x" = ws.getLast h1 := by
        have := (List.append_right_inj ws.dropLast).mp hx
        simpa using this
      exact h2 (by rw [List.getLast?_eq_getLast_of_ne_nil h1, ← this])
    have hcond : ¬(ws.dropLast ++ ["x"] = ws ∨
        (ws <+: ws.dropLast ++ ["x"] ∧ ws ≠ ws.dropLast ++ ["x"])) := by
      rintro (h | ⟨hp, hne'⟩)
      · exact hne h
      · exact hne' (hp.eq_of_length hlen.symm)
    rw [confine_iff, hq, if_neg hcond]
  · have hq : resolvePath ws ⟨false, ["sub", "y"]⟩ = ws ++ ["sub", "y"] := by
      show (ws ++ ["sub"]) ++ ["y"] = ws ++ ["sub", "y"]
      simp
    have hcond : ws ++ ["sub", "y"] = ws ∨
        (ws <+: ws ++ ["sub", "y"] ∧ ws ≠ ws ++ ["sub", "y"]) := by
      right
      refine ⟨List.prefix_append ws _, ?_⟩
      intro h
      have : ws.length = (ws ++ ["sub", "y"]).length := by rw [← h]
      simp at this
    rw [confine_iff, hq, if_pos hcond]

/-- C1 witness: the amended theorem applied at the workspace `/home/user` and
the probe path `a/b`. -/
theorem C1_confine_characterization_witness :
    resolve_in_workspace ["home", "user"] ⟨false, ["..", "x"]⟩ = .error .pathEscape ∧
    resolve_in_workspace ["home", "user"] ⟨false, ["sub", "y"]⟩ =
      .ok (["home", "user"] ++ ["sub", "y"]) ∧
    resolve_in_workspace ["home", "user"] ⟨false, ["a", "b"]⟩ =
      (if resolvePath ["home", "user"] ⟨false, ["a", "b"]⟩ = ["home", "user"] ∨
          (["home", "user"] <+: resolvePath ["home", "user"] ⟨false, ["a", "b"]⟩ ∧
            ["home", "user"] ≠ resolvePath ["home", "user"] ⟨false, ["a", "b"]⟩)
       then .ok (resolvePath ["home", "user"] ⟨false, ["a", "b"]⟩)
       else .error .pathEscape) :=
  C1_confine_characterization ["home", "user"] ⟨false, ["a", "b"]⟩
    (by decide) (by decide)

/-! ## Claims C2 and C10: the shell allowlist guard -/

/-- C2: for every command whose leading whitespace-delimited token exists and
is not in the allowlist, `run_shell` returns the `ok:false` blocked result
carrying the sorted allowlist, and performs no side effect — in particular it
spawns no subprocess, whatever the machine's shell oracle would do. -/
theorem C2_run_shell_blocked (shell : String → String → ShellRun)
    (command cwd : String)
    (h1 : firstTokenOf command ≠ "")
    (h2 : firstTokenOf command ∉ ALLOWED_COMMAND_PREFIXES) :
    run_shell shell command cwd =
      (.dict [("ok", .bool false),
              ("error", .str ("Command prefix '" ++ firstTokenOf command ++
                "' is blocked by allowlist.")),
              ("allowed_prefixes", .list (sortedAllowedCommands.map .str))], []) := by
  unfold run_shell
  rw [if_pos ⟨h1, h2⟩]

/-- C2 witness: `run_shell("rm -rf /", ...)` is blocked without any spawn. -/
theorem C2_run_shell_blocked_witness :
    run_shell (fun _ _ => .timedOut) "rm -rf /" "/ws" =
      (.dict [("ok", .bool false),
              ("error", .str ("Command prefix '" ++ firstTokenOf "rm -rf /" ++
                "' is blocked by allowlist.")),
              ("allowed_prefixes", .list (sortedAllowedCommands.map .str))], []) :=
  C2_run_shell_blocked (fun _ _ => .timedOut) "rm -rf /" "/ws"
    (by decide) (by decide)

/-- C10: a command that is empty or all whitespace has no leading token, so
the allowlist guard does not fire and `run_shell` proceeds to spawn the shell
subprocess with exactly that command. -/
theorem C10_run_shell_whitespace_spawns (shell : String → String → ShellRun)
    (command cwd : String) (h : ∀ c ∈ command.data, pyIsSpace c = true) :
    firstTokenOf command = "" ∧
    (run_shell shell command cwd).2 = [Effect.spawn command cwd] := by
  have hfirst : firstTokenOf command = "" := by
    unfold firstTokenOf pyWords
    rw [wordsAux_all_space h []]
    rfl
  refine ⟨hfirst, ?_⟩
  unfold run_shell
  rw [hfirst]
  simp only [ne_eq, not_true_eq_false, false_and, if_false]
  cases shell command cwd <;> rfl

/-- C10 witness: a three-space command reaches the subprocess spawn. -/
theorem C10_run_shell_whitespace_spawns_witness :
    firstTokenOf "   " = "" ∧
    (run_shell (fun _ _ => .completed 0 "" "") "   " "/ws").2 =
      [Effect.spawn "   " "/ws"] :=
  C10_run_shell_whitespace_spawns (fun _ _ => .completed 0 "" "") "   " "/ws"
    (by decide)

/-! ## Claims C7 and C9: conversation memory -/

/-- C7: the claim says any backing-file content that is not a valid JSON
array makes the next `recent` call return an empty sequence without failing,
and `memory.py` clearly intends that (`_read_all` catches `JSONDecodeError`
for exactly this purpose) — but the code only guards against invalid JSON:
a file holding valid JSON that is not a list (here the file text `42`) is
returned as-is by `_read_all`, and `recent`'s slice `items[-count:]` then
raises `TypeError` instead of returning anything. -/
theorem C7_recent_raises_on_nonlist_json :
    recent (.present (some (.int 42))) 8 = .error .typeError := rfl

/-- C9: calling `recent` with `count = 0` returns the entire stored
transcript in order, because `items[-0:]` is `items[0:]`, the whole list —
not the empty sequence. -/
theorem C9_recent_zero_returns_everything (items : List PyVal)
    (h : items ≠ []) :
    recent (.present (some (.list items))) 0 = .ok (.list items) ∧ items ≠ [] := by
  refine ⟨?_, h⟩
  simp [recent, read_all, pySliceVal, recentSlice, pySliceFrom]

/-- C9 witness: a one-entry transcript is returned whole by `recent(0)`. -/
theorem C9_recent_zero_returns_everything_witness :
    recent (.present (some (.list [.str "hello"]))) 0 =
      .ok (.list [.str "hello"]) ∧ ([PyVal.str "hello"] : List PyVal) ≠ [] :=
  C9_recent_zero_returns_everything [.str "hello"] (List.cons_ne_nil _ _)

/-! ## Claim C6: write/read round trip -/

/-- C6 counterexample: the round trip is not exact for every content string.
Writing `a\r\nb` stores `a\r\r\nb` (write translates the `'\n'` to the
platform's `'\r\n'` and writes the lone `'\r'` verbatim), and reading decodes
universal newlines, returning `a\n\nb` — not the bytes that were written. -/
theorem C6_counterexample :
    (read_file ["ws"]
        (write_file ["ws"] (fun _ => none) ⟨false, ["f.txt"]⟩ "a\r\nb").2.1
        ⟨false, ["f.txt"]⟩).1 =
      .dict [("ok", .bool true), ("path", .str "/ws/f.txt"),
             ("content", .str "a\n\nb")] ∧
    ("a\n\nb" : String) ≠ "a\r\nb" := by
  refine ⟨rfl, by decide⟩

/-- Universal-newline decoding inverts the write-side translation exactly on
content free of carriage returns. -/
lemma decode_encode {l : List Char} (h : '\r' ∉ l) :
    decodeNewlines (encodeNewlines l) = l := by
  induction l with
  | nil => rfl
  | cons c rest ih =>
    have hcr : c ≠ '\r' := fun hc => h (hc ▸ List.mem_cons_self c rest)
    have hrest : '\r' ∉ rest := fun hr => h (List.mem_cons_of_mem c hr)
    by_cases hn : c = '\n'
    · subst hn
      simp only [encodeNewlines, if_pos rfl, decodeNewlines, if_pos rfl]
      rw [ih hrest]
      simp
    · simp only [encodeNewlines, if_neg hn]
      cases hE : encodeNewlines rest with
      | nil =>
        have : rest = [] := by
          have := ih hrest
          rw [hE] at this
          exact this.symm
        subst this
        simp [decodeNewlines, hcr]
      | cons d rest' =>
        have hstep : decodeNewlines (c :: d :: rest') =
            c :: decodeNewlines (d :: rest') := by
          simp [decodeNewlines, hcr]
        rw [hstep, ← hE, ih hrest]

/-- C6 (amended): on any confined path and any content free of carriage
returns, `write_file` reports `ok` with the UTF-8 byte count of the content
and a `read_file` of the same path against the updated filesystem returns
exactly the written content, tail-truncated only by the 16000-character read
cap (the identity whenever the content is no longer than 16000 characters).
For content containing `'\r'` the newline translation of
`write_text`/`read_text` breaks the round trip (see the counterexample). -/
theorem C6_write_read_roundtrip (ws : AbsPath) (fs : FsState) (p : UserPath)
    (content : String) (q : AbsPath)
    (h : resolve_in_workspace ws p = .ok q)
    (hcr : '\r' ∉ content.data) :
    (write_file ws fs p content).1 =
      .dict [("ok", .bool true), ("path", .str (renderPath q)),
             ("bytes", .int (content.utf8ByteSize : Int))] ∧
    (read_file ws (write_file ws fs p content).2.1 p).1 =
      .dict [("ok", .bool true), ("path", .str (renderPath q)),
             ("content", .str (pyTailStr 16000 content))] ∧
    pyTailStr 16000 content =
      (if content.length ≤ 16000 then content
       else String.mk (content.data.drop (content.data.length - 16000))) := by
  have hdec : decodeStr (encodeStr content) = content := by
    show String.mk (decodeNewlines (encodeNewlines content.data)) = content
    rw [decode_encode hcr]
  refine ⟨?_, ?_, ?_⟩
  · unfold write_file
    rw [h]
  · have hfs : (write_file ws fs p content).2.1 = fun r =>
        if r = q then some (encodeStr content) else fs r := by
      unfold write_file
      rw [h]
    unfold read_file
    rw [h, hfs]
    simp [hdec]
  · unfold pyTailStr
    by_cases hlen : content.length ≤ 16000
    · rw [if_pos hlen]
      have hz : content.data.length - 16000 = 0 := by
        have hl : content.length = content.data.length := rfl
        omega
      rw [hz, List.drop_zero]
    · rw [if_neg hlen]

/-- C6 witness: writing `hello` to `notes.txt` under `/ws` and reading it
back returns `hello` exactly. -/
theorem C6_write_read_roundtrip_witness :
    (write_file ["ws"] (fun _ => none) ⟨false, ["notes.txt"]⟩ "hello").1 =
      .dict [("ok", .bool true), ("path", .str (renderPath ["ws", "notes.txt"])),
             ("bytes", .int ((("hello" : String).utf8ByteSize : Int)))] ∧
    (read_file ["ws"]
        (write_file ["ws"] (fun _ => none) ⟨false, ["notes.txt"]⟩ "hello").2.1
        ⟨false, ["notes.txt"]⟩).1 =
      .dict [("ok", .bool true), ("path", .str (renderPath ["ws", "notes.txt"])),
             ("content", .str (pyTailStr 16000 "hello"))] ∧
    pyTailStr 16000 "hello" =
      (if ("hello" : String).length ≤ 16000 then "hello"
       else String.mk (("hello" : String).data.drop
         (("hello" : String).data.length - 16000))) :=
  C6_write_read_roundtrip ["ws"] (fun _ => none) ⟨false, ["notes.txt"]⟩ "hello"
    ["ws", "notes.txt"] rfl (by decide)

/-! ## Claim C4: tool dispatch never raising -/

/-- A world with inert oracles, for evaluating the dispatcher at concrete
inputs. -/
def trivialWorld : ToolWorld where
  workspace := []
  parsePath := fun _ => ⟨false, []⟩
  shell := fun _ _ => .timedOut
  web := fun _ => .null
  pathExists := fun _ => false
  rglob := fun _ => []
  prefetch := fun _ => none

/-- The empty filesystem. -/
def emptyFs : FsState := fun _ => none

/-- C4: the claim says `execute_tool` returns serialized text for every tool
name and argument string and never raises — and `tools.py` clearly intends
that (it catches `JSONDecodeError`, and each tool catches its own errors) —
but an argument string holding valid JSON that is not an object (here `[]`,
with the known tool `run_shell`) reaches `args.get("cwd")` on a list and
raises `AttributeError` through the dispatcher instead of returning a
result. -/
theorem C4_execute_tool_raises :
    execute_tool trivialWorld emptyFs "run_shell" (some (.list [])) =
      .error .attributeError := rfl

/-! ## Claim C5: provider-mode selection -/

/-- C5 counterexample: the claim says a configured endpoint defaults to the
chat style only when its host is a loopback address, but the code tests for
`localhost`/`127.0.0.1` as substrings of the whole URL: the endpoint
`https://example.com/localhost` has host `example.com`, not a loopback, yet
`_choose_api_mode` picks `chat` where the specification's policy picks
`responses`. -/
theorem C5_counterexample :
    choose_api_mode "auto" (some "https://example.com/localhost") = "chat" ∧
    specHost "https://example.com/localhost" = "example.com" ∧
    isLoopbackHost "example.com" = false ∧
    choose_api_mode_spec "auto" (some "https://example.com/localhost") =
      "responses" := by
  refine ⟨by decide, by decide, by decide, by decide⟩

/-- C5 (amended): `_choose_api_mode` returns an explicit `responses`/`chat`
mode unchanged; otherwise it returns `chat` exactly when a non-empty base URL
is configured whose lowercased text contains `localhost` or `127.0.0.1` as a
substring, and `responses` in every other case. -/
theorem C5_choose_mode_characterization (mode : String) (baseUrl : Option String) :
    (choose_api_mode mode baseUrl = "chat" ↔
      (mode = "chat" ∨ (mode ≠ "responses" ∧ mode ≠ "chat" ∧
        ∃ u, baseUrl = some u ∧ u ≠ "" ∧
          (strContains (pyLowerStr u) "localhost" = true ∨
           strContains (pyLowerStr u) "127.0.0.1" = true)))) ∧
    (choose_api_mode mode baseUrl = "responses" ↔
      ¬(mode = "chat" ∨ (mode ≠ "responses" ∧ mode ≠ "chat" ∧
        ∃ u, baseUrl = some u ∧ u ≠ "" ∧
          (strContains (pyLowerStr u) "localhost" = true ∨
           strContains (pyLowerStr u) "127.0.0.1" = true)))) := by
  unfold choose_api_mode
  by_cases h1 : mode = "responses" ∨ mode = "chat"
  · rw [if_pos h1]
    rcases h1 with h | h <;> subst h <;> simp
  · rw [if_neg h1]
    push_neg at h1
    obtain ⟨hr, hc⟩ := h1
    by_cases h2 : baseUrl = none ∨ baseUrl = some ""
    · rw [if_pos h2]
      constructor
      · constructor
        · intro h
          exact absurd h (by decide)
        · rintro (h | ⟨_, _, u', hu', hne', _⟩)
          · exact absurd h hc
          · rcases h2 with h2 | h2 <;> rw [h2] at hu'
            · exact absurd hu' (by simp)
            · exact absurd (by injection hu' with h; exact h.symm) hne'
      · constructor
        · rintro _ (h | ⟨_, _, u', hu', hne', _⟩)
          · exact hc h
          · rcases h2 with h2 | h2 <;> rw [h2] at hu'
            · exact absurd hu' (by simp)
            · exact hne' (by injection hu' with h; exact h.symm)
        · intro _
          rfl
    · rw [if_neg h2]
      push_neg at h2
      obtain ⟨hn, he⟩ := h2
      obtain ⟨u, rfl⟩ := Option.ne_none_iff_exists'.mp hn
      have hu : u ≠ "" := fun h => he (by rw [h])
      simp only [Option.getD_some]
      by_cases hsub : strContains (pyLowerStr u) "localhost" = true ∨
          strContains (pyLowerStr u) "127.0.0.1" = true
      · have hif : (if (strContains (pyLowerStr u) "localhost" ||
            strContains (pyLowerStr u) "127.0.0.1") = true then "chat"
            else "responses") = "chat" := by
          rcases hsub with h | h <;> simp [h]
        rw [hif]
        constructor
        · constructor
          · intro _
            exact Or.inr ⟨hr, hc, u, rfl, hu, hsub⟩
          · intro _
            rfl
        · constructor
          · intro h
            exact absurd h (by decide)
          · intro h
            exact absurd (Or.inr ⟨hr, hc, u, rfl, hu, hsub⟩) h
      · have hif : (if (strContains (pyLowerStr u) "localhost" ||
            strContains (pyLowerStr u) "127.0.0.1") = true then "chat"
            else "responses") = "responses" := by
          push_neg at hsub
          simp [hsub.1, hsub.2]
        rw [hif]
        constructor
        · constructor
          · intro h
            exact absurd h (by decide)
          · rintro (h | ⟨_, _, u', hu', _, hsub'⟩)
            · exact absurd h hc
            · obtain rfl : u' = u := by injection hu' with h; exact h.symm
              exact absurd hsub' hsub
        · constructor
          · rintro _ (h | ⟨_, _, u', hu', _, hsub'⟩)
            · exact hc h
            · obtain rfl : u' = u := by injection hu' with h; exact h.symm
              exact hsub hsub'
          · intro _
            rfl

/-! ## Claim C8: greeting short-circuit -/

/-- Every character of every greeting word is a lowercase ASCII letter. -/
lemma greeting_chars_lower :
    ∀ s ∈ GREETING_WORDS, ∀ ch ∈ s.data, 97 ≤ ch.toNat ∧ ch.toNat ≤ 122 := by
  decide

/-- For an input whose whitespace-delimited tokens are all greeting words,
the cleaning pipeline of `maybe_handle_smalltalk` leaves the token sequence
unchanged, so the function returns one of the two canned replies. -/
lemma smalltalk_of_greetings (input : String)
    (h1 : pyWords input.data ≠ [])
    (h2 : (pyWords input.data).length ≤ 3)
    (h3 : ∀ wd ∈ pyWords input.data, String.mk wd ∈ GREETING_WORDS) :
    maybe_handle_smalltalk input = some dutchReply ∨
    maybe_handle_smalltalk input = some englishReply := by
  have hmap : smalltalkClean input.data =
      pyStrip (input.data.map fun c =>
        if smalltalkKeep (lowerChar c) then lowerChar c else ' ') := by
    unfold smalltalkClean
    rw [List.map_map]
    rfl
  have hchars : ∀ c ∈ input.data,
      (pyIsSpace c = false ∧
        (if smalltalkKeep (lowerChar c) then lowerChar c else ' ') = c) ∨
      (pyIsSpace c = true ∧
        pyIsSpace (if smalltalkKeep (lowerChar c) then lowerChar c else ' ') = true) := by
    intro c hcmem
    by_cases hs : pyIsSpace c = true
    · right
      refine ⟨hs, ?_⟩
      simp only [pyIsSpace, Bool.or_eq_true, beq_iff_eq] at hs
      rcases hs with ((((rfl | rfl) | rfl) | rfl) | rfl) | rfl <;> decide
    · left
      have hs' : pyIsSpace c = false := by simpa using hs
      refine ⟨hs', ?_⟩
      obtain ⟨wd, hwd, hcw⟩ := exists_word_of_mem hs' input.data [] (Or.inr hcmem)
      have hch : 97 ≤ c.toNat ∧ c.toNat ≤ 122 :=
        greeting_chars_lower (String.mk wd) (h3 wd hwd) c hcw
      have hl : lowerChar c = c := by
        unfold lowerChar
        rw [if_neg ?hno]
        case hno =>
          rintro ⟨ha, hb⟩
          omega
      have hk : smalltalkKeep c = true := by
        unfold smalltalkKeep
        rw [if_pos (Or.inl hch)]
      rw [hl, hk]
      rfl
  have hwords : pyWords (smalltalkClean input.data) = pyWords input.data := by
    rw [hmap, pyWords_pyStrip]
    exact wordsAux_map hchars []
  have hclean_ne : smalltalkClean input.data ≠ [] := by
    intro h
    rw [h] at hwords
    have hnil : pyWords ([] : List Char) = [] := rfl
    rw [hnil] at hwords
    exact h1 hwords.symm
  have hall : (pyWords input.data).all (fun w => String.mk w ∈ GREETING_WORDS) = true :=
    List.all_eq_true.mpr fun w hw => decide_eq_true (h3 w hw)
  unfold maybe_handle_smalltalk
  rw [hwords, if_neg hclean_ne, if_neg h1, if_pos ⟨h2, hall⟩]
  by_cases hd : (pyWords input.data).any
      (fun w => String.mk w ∈ DUTCH_GREETING_WORDS) = true
  · rw [if_pos hd]
    exact Or.inl rfl
  · rw [if_neg hd]
    exact Or.inr rfl

/-- C8: for every user input that splits into one to three whitespace
-delimited tokens all drawn from the greeting set, both turn engines return a
canned reply (the Dutch or the English one) with zero provider round-trips,
whatever the provider, memory, filesystem and fuel are. -/
theorem C8_greeting_bypasses_provider (w : ToolWorld) (fs : FsState)
    (chatProvider : List Msg → ChatCompletion)
    (respProvider : List Msg → Nat → List RespToolOutput → RespOut)
    (memoryItems : List Entry) (fuel : Nat) (userInput : String)
    (h1 : pyWords userInput.data ≠ [])
    (h2 : (pyWords userInput.data).length ≤ 3)
    (h3 : ∀ wd ∈ pyWords userInput.data, String.mk wd ∈ GREETING_WORDS) :
    ∃ reply, (reply = dutchReply ∨ reply = englishReply) ∧
      run_turn_chat w fs chatProvider memoryItems userInput =
        (.answer reply, 0) ∧
      run_turn_responses w fs respProvider memoryItems userInput fuel =
        (.answer reply, 0) := by
  rcases smalltalk_of_greetings userInput h1 h2 h3 with h | h
  · refine ⟨dutchReply, Or.inl rfl, ?_, ?_⟩
    · unfold run_turn_chat
      rw [h]
    · unfold run_turn_responses
      rw [h]
  · refine ⟨englishReply, Or.inr rfl, ?_, ?_⟩
    · unfold run_turn_chat
      rw [h]
    · unfold run_turn_responses
      rw [h]

/-- C8 witness: the greeting `hoi hallo` short-circuits both engines. -/
theorem C8_greeting_bypasses_provider_witness :
    ∃ reply, (reply = dutchReply ∨ reply = englishReply) ∧
      run_turn_chat trivialWorld emptyFs (fun _ => ⟨some "ok", []⟩) []
        "hoi hallo" = (.answer reply, 0) ∧
      run_turn_responses trivialWorld emptyFs (fun _ _ _ => ⟨"ok", []⟩) []
        "hoi hallo" 3 = (.answer reply, 0) :=
  C8_greeting_bypasses_provider trivialWorld emptyFs (fun _ => ⟨some "ok", []⟩)
    (fun _ _ _ => ⟨"ok", []⟩) [] 3 "hoi hallo" (by decide) (by decide) (by decide)

/-! ## Claim C3: the 12-round cap of the chat engine -/

/-- Is an `Except` a success? -/
def isOkE {ε α : Type} : Except ε α → Bool
  | .ok _ => true
  | .error _ => false

/-- A provider that answers every request with the same single tool call
whose argument JSON parsed to a (non-object) array: one round of this aborts
the turn with the `AttributeError` of claim C4. -/
def badArgsProvider : List Msg → ChatCompletion :=
  fun _ => ⟨some "", [⟨"c1", "run_shell", some (.list [])⟩]⟩

/-- C3 counterexample: the claim promises the fixed stop message after
exactly 12 rounds for every provider whose responses all carry a tool call —
but a provider whose requested call makes `execute_tool` raise (argument
JSON `[]` for `run_shell`) terminates the turn with an uncaught
`AttributeError` after a single round instead. -/
theorem C3_counterexample :
    run_turn_chat trivialWorld emptyFs badArgsProvider [] "do something" =
      (.exc .attributeError, 1) := rfl

/-- If every call of a round executes without raising, `execCalls` succeeds. -/
lemma execCalls_ok (w : ToolWorld) :
    ∀ (calls : List ChatToolCall),
      (∀ (fs' : FsState), ∀ c ∈ calls, isOkE (execute_tool w fs' c.name c.args) = true) →
      ∀ fs : FsState, ∃ msgs fs'', execCalls w fs calls = .ok (msgs, fs'')
  | [], _, fs => ⟨[], fs, rfl⟩
  | c :: cs, h, fs => by
    have hc := h fs c (List.mem_cons_self c cs)
    cases hexec : execute_tool w fs c.name c.args with
    | error e =>
      rw [hexec] at hc
      exact absurd hc (by simp [isOkE])
    | ok v =>
      obtain ⟨out, fs', effs⟩ := v
      obtain ⟨msgs, fs'', hrec⟩ :=
        execCalls_ok w cs (fun fs₂ c₂ hc₂ => h fs₂ c₂ (List.mem_cons_of_mem _ hc₂)) fs'
      exact ⟨Msg.tool c.id out :: msgs, fs'', by simp [execCalls, hexec, hrec]⟩

/-- Under an always-tool-calling, never-raising provider, `chatLoop` consumes
all its fuel, one provider round-trip per unit, and ends in the fixed stop
message. -/
lemma chatLoop_cap (w : ToolWorld) (provider : List Msg → ChatCompletion)
    (h1 : ∀ ms, (provider ms).toolCalls ≠ [])
    (h2 : ∀ (fs' : FsState) (ms : List Msg), ∀ c ∈ (provider ms).toolCalls,
      isOkE (execute_tool w fs' c.name c.args) = true) :
    ∀ (n : Nat) (ms : List Msg) (fs : FsState),
      chatLoop w provider ms fs n =
        (.answer "Stopped after too many tool iterations.", n)
  | 0, ms, fs => rfl
  | n + 1, ms, fs => by
    have hne : ¬(provider ms).toolCalls.isEmpty = true := by
      simp only [List.isEmpty_iff]
      exact h1 ms
    obtain ⟨msgs, fs'', hexec⟩ :=
      execCalls_ok w (provider ms).toolCalls (fun fs' c hc => h2 fs' ms c hc) fs
    simp only [chatLoop, hexec, if_neg hne]
    rw [chatLoop_cap w provider h1 h2 n _ fs'']

/-- C3 (amended): under the chat-style protocol, for every non-greeting input
and every provider whose every response carries at least one tool call and
whose requested calls all execute without raising a Python exception, the
engine performs exactly 12 provider round-trips and returns the fixed
message `Stopped after too many tool iterations.`. -/
theorem C3_chat_engine_caps_at_12 (w : ToolWorld) (fs : FsState)
    (provider : List Msg → ChatCompletion) (memoryItems : List Entry)
    (userInput : String)
    (h0 : maybe_handle_smalltalk userInput = none)
    (h1 : ∀ ms, (provider ms).toolCalls ≠ [])
    (h2 : ∀ (fs' : FsState) (ms : List Msg), ∀ c ∈ (provider ms).toolCalls,
      isOkE (execute_tool w fs' c.name c.args) = true) :
    run_turn_chat w fs provider memoryItems userInput =
      (.answer "Stopped after too many tool iterations.", 12) := by
  unfold run_turn_chat
  rw [h0]
  exact chatLoop_cap w provider h1 h2 12 _ fs

/-- A provider that always requests one call of a tool name outside the
catalog: `execute_tool` answers it with the `Unknown tool` result and never
raises. -/
def unknownToolProvider : List Msg → ChatCompletion :=
  fun _ => ⟨some "", [⟨"c1", "frobnicate", some (.dict [])⟩]⟩

/-- C3 witness: the amended theorem at a concrete non-greeting input and the
always-tool-calling `unknownToolProvider`. -/
theorem C3_chat_engine_caps_at_12_witness :
    run_turn_chat trivialWorld emptyFs unknownToolProvider [] "do something" =
      (.answer "Stopped after too many tool iterations.", 12) :=
  C3_chat_engine_caps_at_12 trivialWorld emptyFs unknownToolProvider []
    "do something" (by decide)
    (fun ms => by simp [unknownToolProvider])
    (fun fs' ms c hc => by
      simp only [unknownToolProvider, List.mem_singleton] at hc
      subst hc
      rfl)

end Agent
